import Mathlib

/-!
Verification of the interactive black-hole renderer (`black_hole.py`).

The development shallowly embeds the program's core: the procedural mesh
generators (`create_sphere`, `create_ring`), the per-frame camera/event loop
of `main`, the draw-call sequence (`draw_stars`, `draw_object`), and the
startup behaviour on malformed configuration.

Modelling conventions:
* Python floats are modelled by `ℚ` (exact arithmetic; the spec's
  floating-point tolerances become exact equalities).
* The transcendental functions `np.sin` / `np.cos` are abstracted as a
  supplied table of values, one pair per loop index, so that the geometry
  stays exact and computable.  `trig i` stands for
  `(cos(i·2π/segments), sin(i·2π/segments))` in `create_ring`;
  `latT lat = (sin(lat·π/lat_bands), cos(lat·π/lat_bands))` and
  `longT long = (sin(long·2π/long_bands), cos(long·2π/long_bands))` in
  `create_sphere`, matching the order in which the Python code names them.
* The generators take their parameters explicitly (the Python code reads
  module-level constants / keyword dictionaries; the values used by `main`
  appear as separate constants below).
-/

/-- A 3D point or vector with exact rational coordinates (embedding of the
Python coordinate triples). -/
structure Vec3 where
  x : ℚ
  y : ℚ
  z : ℚ
deriving DecidableEq, Repr

/-- Centerline sample `i` of a ring (`black_hole.py` line 39):
`(radius·cosθ, radius·sinθ, 0)` when `horizontal`, else
`(radius·cosθ, 0, radius·sinθ)`, where `trig i = (cos θ_i, sin θ_i)`. -/
def ring_center (radius : ℚ) (horizontal : Bool) (trig : ℕ → ℚ × ℚ) (i : ℕ) : Vec3 :=
  if horizontal then ⟨radius * (trig i).1, radius * (trig i).2, 0⟩
  else ⟨radius * (trig i).1, 0, radius * (trig i).2⟩

/-- Ring vertex list (`black_hole.py` lines 37–40): for each `i` in
`range(segments+1)` the pair `(x, y, z - thickness/2), (x, y, z + thickness/2)`
is appended, where `(x, y, z)` is the centerline sample. -/
def create_ring_vertices (radius thickness : ℚ) (segments : ℕ) (horizontal : Bool)
    (trig : ℕ → ℚ × ℚ) : List Vec3 :=
  (List.range (segments + 1)).flatMap fun i =>
    let p := ring_center radius horizontal trig i
    [⟨p.x, p.y, p.z - thickness / 2⟩, ⟨p.x, p.y, p.z + thickness / 2⟩]

/-- Ring index list (`black_hole.py` lines 41–43): for each `i` in
`range(segments)`, with `next_i = (i+1) % segments`, the six indices
`[i*2, next_i*2, next_i*2+1, i*2, next_i*2+1, i*2+1]` are appended. -/
def create_ring_indices (segments : ℕ) : List ℕ :=
  (List.range segments).flatMap fun i =>
    let next_i := (i + 1) % segments
    [i * 2, next_i * 2, next_i * 2 + 1, i * 2, next_i * 2 + 1, i * 2 + 1]

/-- The ring generator (`black_hole.py` lines 35–44), returning the vertex and
index buffers. -/
def create_ring (radius thickness : ℚ) (segments : ℕ) (horizontal : Bool)
    (trig : ℕ → ℚ × ℚ) : List Vec3 × List ℕ :=
  (create_ring_vertices radius thickness segments horizontal trig,
   create_ring_indices segments)

/-- The unit normal at sphere grid point `(lat, long)`
(`black_hole.py` line 25): `(cosφ·sinθ, cosθ, sinφ·sinθ)` where
`latT lat = (sin θ, cos θ)` and `longT long = (sin φ, cos φ)`. -/
def sphere_normal (latT longT : ℕ → ℚ × ℚ) (lat long : ℕ) : Vec3 :=
  let st := (latT lat).1
  let ct := (latT lat).2
  let sp := (longT long).1
  let cp := (longT long).2
  ⟨cp * st, ct, sp * st⟩

/-- Sphere normal list (`black_hole.py` lines 19–26): row-major over the
`(lat_bands+1) × (long_bands+1)` grid. -/
def create_sphere_normals (lat_bands long_bands : ℕ) (latT longT : ℕ → ℚ × ℚ) : List Vec3 :=
  (List.range (lat_bands + 1)).flatMap fun lat =>
    (List.range (long_bands + 1)).map fun long =>
      sphere_normal latT longT lat long

/-- Sphere vertex list (`black_hole.py` line 27): each grid point contributes
`(radius·x, radius·y, radius·z)` where `(x, y, z)` is the normal at that
point. -/
def create_sphere_vertices (radius : ℚ) (lat_bands long_bands : ℕ)
    (latT longT : ℕ → ℚ × ℚ) : List Vec3 :=
  (List.range (lat_bands + 1)).flatMap fun lat =>
    (List.range (long_bands + 1)).map fun long =>
      let n := sphere_normal latT longT lat long
      ⟨radius * n.x, radius * n.y, radius * n.z⟩

/-- Sphere index list (`black_hole.py` lines 28–31): for each cell
`(lat, long)` with `lat < lat_bands`, `long < long_bands`,
`first = lat·(long_bands+1) + long`, `second = first + long_bands + 1`, the
six indices `[first, second, first+1, second, second+1, first+1]` are
appended. -/
def create_sphere_indices (lat_bands long_bands : ℕ) : List ℕ :=
  (List.range lat_bands).flatMap fun lat =>
    (List.range long_bands).flatMap fun long =>
      let first := lat * (long_bands + 1) + long
      let second := lat * (long_bands + 1) + long + long_bands + 1
      [first, second, first + 1, second, second + 1, first + 1]

/-- The sphere generator (`black_hole.py` lines 15–32), returning vertex,
normal and index buffers. -/
def create_sphere (radius : ℚ) (lat_bands long_bands : ℕ)
    (latT longT : ℕ → ℚ × ℚ) : List Vec3 × List Vec3 × List ℕ :=
  (create_sphere_vertices radius lat_bands long_bands latT longT,
   create_sphere_normals lat_bands long_bands latT longT,
   create_sphere_indices lat_bands long_bands)

/-- Exact values of `(cos θ_i, sin θ_i)` for `θ_i = i·2π/4`, i.e. a concrete
trig table for a ring with `segments = 4`. -/
def trig4 : ℕ → ℚ × ℚ := fun i =>
  match i % 4 with
  | 0 => (1, 0)
  | 1 => (0, 1)
  | 2 => (-1, 0)
  | _ => (0, -1)

/-! ### The event/camera loop of `main` (`black_hole.py` lines 101–137) -/

/-- A pygame event as consumed by the loop. Button events carry the button
number; `mouseButtonDown` and `mouseMotion` carry the current pointer
position reported by `pygame.mouse.get_pos()`. -/
inductive Event where
  | quit : Event
  | mouseButtonDown (button : ℕ) (pos : ℤ × ℤ) : Event
  | mouseButtonUp (button : ℕ) : Event
  | mouseMotion (pos : ℤ × ℤ) : Event
deriving DecidableEq, Repr

/-- The loop's mutable state (`black_hole.py` lines 101–104). -/
structure LoopState where
  rot_x : ℚ
  rot_y : ℚ
  rot_x_velocity : ℚ
  rot_y_velocity : ℚ
  mouse_down : Bool
  last_mouse_pos : ℤ × ℤ
deriving DecidableEq, Repr

/-- `camera_rotation_speed = 0.02` (`black_hole.py` line 105). -/
def camera_rotation_speed : ℚ := 2 / 100

/-- `deceleration = 0.95` (`black_hole.py` line 106). -/
def deceleration : ℚ := 95 / 100

/-- Initial loop state (`black_hole.py` lines 101–104). -/
def initial_state : LoopState :=
  { rot_x := 0
    rot_y := 0
    rot_x_velocity := 0
    rot_y_velocity := 0
    mouse_down := false
    last_mouse_pos := (0, 0) }

/-- One step of the event dispatch (`black_hole.py` lines 110–126).
`none` means the program terminated (`pygame.quit(); quit()`). -/
def handleEvent (s : LoopState) (e : Event) : Option LoopState :=
  match e with
  | .quit => none
  | .mouseButtonDown button pos =>
      if button = 1 then some { s with mouse_down := true, last_mouse_pos := pos }
      else some s
  | .mouseButtonUp button =>
      if button = 1 then some { s with mouse_down := false }
      else some s
  | .mouseMotion pos =>
      if s.mouse_down then
        let dx := pos.1 - s.last_mouse_pos.1
        let dy := pos.2 - s.last_mouse_pos.2
        some { s with
          rot_x_velocity := s.rot_x_velocity + (dy : ℚ) / 100
          rot_y_velocity := s.rot_y_velocity + (dx : ℚ) / 100
          last_mouse_pos := pos }
      else some s

/-- Sequential dispatch of one frame's event list (`for event in
pygame.event.get()`). -/
def handleEvents (s : LoopState) : List Event → Option LoopState
  | [] => some s
  | e :: es => (handleEvent s e).bind fun s2 => handleEvents s2 es

/-- One frame of the loop body (`black_hole.py` lines 110–137): dispatch the
frame's events, then decay the velocities when no drag is active, integrate
the angles, and add the ambient auto-rotation when no drag is active. -/
def frame (s : LoopState) (events : List Event) : Option LoopState :=
  (handleEvents s events).map fun s1 =>
    let s2 :=
      if s1.mouse_down then s1
      else { s1 with
        rot_x_velocity := s1.rot_x_velocity * deceleration
        rot_y_velocity := s1.rot_y_velocity * deceleration }
    let s3 := { s2 with
      rot_x := s2.rot_x + s2.rot_x_velocity
      rot_y := s2.rot_y + s2.rot_y_velocity }
    if s3.mouse_down then s3
    else { s3 with rot_x := s3.rot_x + camera_rotation_speed }

/-- Run the loop for the given per-frame event lists. -/
def runFrames (s : LoopState) : List (List Event) → Option LoopState
  | [] => some s
  | evs :: rest => (frame s evs).bind fun s2 => runFrames s2 rest

/-- An event that is neither a quit request nor a press of the primary
mouse button. -/
def NoPress (e : Event) : Prop :=
  match e with
  | .quit => False
  | .mouseButtonDown button _ => button ≠ 1
  | _ => True

/-! ### The per-frame draw sequence (`draw_stars`, `draw_object`,
`black_hole.py` lines 47–60, 72–79, 146–150) -/

/-- Identifiers for the geometry buffers created once at startup
(`black_hole.py` lines 94–97). -/
inductive BufferId where
  | sphere_vertices_buf : BufferId
  | sphere_normals_buf : BufferId
  | ring_buf : BufferId
  | additional_ring_buf : BufferId
  | horizontal_ring_buf : BufferId
deriving DecidableEq, Repr

/-- The relevant fixed-function GL state: whether `GL_LIGHTING` is enabled,
whether the normal client array is enabled, which buffer the normal pointer
is bound to, and the current line width.  OpenGL defaults: lighting
disabled, arrays disabled, line width 1; the program never calls
`glEnable(GL_LIGHTING)`. -/
structure GLState where
  lighting : Bool
  normal_array_enabled : Bool
  normal_pointer : Option BufferId
  line_width : ℚ
deriving DecidableEq, Repr

/-- The GL state at context creation. -/
def initial_gl : GLState :=
  { lighting := false
    normal_array_enabled := false
    normal_pointer := none
    line_width := 1 }

/-- A draw call as issued to the renderer: either the immediate-mode point
cloud of stars, or an indexed-triangle draw with the color, the lighting
flag at draw time, and the buffer bound as the normal array (if enabled). -/
inductive DrawCall where
  | points (color : ℚ × ℚ × ℚ) (lit : Bool) : DrawCall
  | elements (vertex_buffer : BufferId) (color : ℚ × ℚ × ℚ) (width : ℚ)
      (lit : Bool) (normal_source : Option BufferId) : DrawCall
deriving DecidableEq, Repr

/-- `draw_object` (`black_hole.py` lines 47–60): binds the vertex array and
color; when `use_normal` it enables the normal array, binds the normal
pointer to the same `vertices` buffer (line 53 passes `vertices`, not a
normals argument), and disables lighting (line 54); sets the line width when
nonzero; then issues `glDrawElements` and disables the arrays again. -/
def draw_object (gl : GLState) (vertices : BufferId) (color : ℚ × ℚ × ℚ)
    (line_width : ℚ) ( use_normal : Bool) : GLState × DrawCall :=
  let gl1 :=
    if use_normal then
      { gl with
        normal_array_enabled := true
        normal_pointer := some vertices
        lighting := false }
    else gl
  let gl2 := if line_width = 0 then gl1 else { gl1 with line_width := line_width }
  let call := DrawCall.elements vertices color gl2.line_width gl2.lighting
    (if gl2.normal_array_enabled then gl2.normal_pointer else none)
  let gl3 := if use_normal then { gl2 with normal_array_enabled := false } else gl2
  (gl3, call)

/-- `draw_stars` (`black_hole.py` lines 72–79): disables lighting, sets the
color to white, and draws the stars as immediate-mode points. -/
def draw_stars (gl : GLState) : GLState × DrawCall :=
  let gl1 := { gl with lighting := false }
  (gl1, DrawCall.points (1, 1, 1) gl1.lighting)

/-- The five draw calls of one frame (`black_hole.py` lines 146–150): stars,
then the sphere with `use_normal=True`, then the three rings, with the colors
and default line width used at the call sites. -/
def frame_draw_calls (gl : GLState) : List DrawCall :=
  let p1 := draw_stars gl
  let p2 := draw_object p1.1 .sphere_vertices_buf (6/100, 6/100, 6/100) 2 true
  let p3 := draw_object p2.1 .ring_buf (1, 1/2, 0) 2 false
  let p4 := draw_object p3.1 .additional_ring_buf (1, 1/2, 0) 2 false
  let p5 := draw_object p4.1 .horizontal_ring_buf (1, 1/2, 0) 2 false
  [p1.2, p2.2, p3.2, p4.2, p5.2]

/-! ### Startup behaviour on malformed configuration -/

/-- The ring generator including its only possible startup failure: with
`segments = 0` the Python expression `i * 2 * np.pi / segments` raises an
uncaught `ZeroDivisionError` on the first iteration.  No other validation
exists anywhere in the program: any radius, thickness or deceleration value
is accepted silently. -/
def create_ring_checked (radius thickness : ℚ) (segments : ℕ) (horizontal : Bool)
    (trig : ℕ → ℚ × ℚ) : Except String (List Vec3 × List ℕ) :=
  if segments = 0 then .error "ZeroDivisionError: division by zero"
  else .ok (create_ring radius thickness segments horizontal trig)

/-! ### Generic list lemmas for the flat-mapped buffers -/

/-- Length of a flat map over `List.range` whose blocks all have length `c`. -/
lemma length_flatMap_range {α : Type} (f : ℕ → List α) (n c : ℕ)
    (h : ∀ i, (f i).length = c) :
    ((List.range n).flatMap f).length = n * c := by
  induction n with
  | zero => simp
  | succ n ih =>
    rw [List.range_succ, List.flatMap_append, List.length_append, ih]
    simp [h, Nat.succ_mul]

/-- Element lookup in a flat map over `List.range` whose blocks are pairs. -/
lemma getElem?_flatMap_pair {α : Type} (f g : ℕ → α) (n i : ℕ) (h : i < n) :
    (((List.range n).flatMap fun j => [f j, g j])[2 * i]? = some (f i)) ∧
    (((List.range n).flatMap fun j => [f j, g j])[2 * i + 1]? = some (g i)) := by
  induction n with
  | zero => omega
  | succ n ih =>
    rw [List.range_succ, List.flatMap_append]
    have hlen : ((List.range n).flatMap fun j => [f j, g j]).length = 2 * n := by
      rw [length_flatMap_range (fun j => [f j, g j]) n 2 (fun _ => rfl)]
      ring
    rcases Nat.lt_or_ge i n with hi | hi
    · rw [List.getElem?_append, List.getElem?_append, hlen]
      rw [if_pos (by omega), if_pos (by omega)]
      exact ih hi
    · have hin : i = n := by omega
      subst hin
      rw [List.getElem?_append, List.getElem?_append, hlen]
      rw [if_neg (by omega), if_neg (by omega)]
      constructor
      · simp [Nat.sub_self]
      · have h1 : 2 * i + 1 - 2 * i = 1 := by omega
        simp [h1]

/-! ### Claims about the mesh generators -/

/-- C6: for all `segments ≥ 3`, the ring generator produces exactly
`2·(segments+1)` vertices and `6·segments` triangle indices, and every
emitted index is strictly less than the vertex count. -/
theorem ring_buffer_counts (radius thickness : ℚ) (segments : ℕ) (horizontal : Bool)
    (trig : ℕ → ℚ × ℚ) (h : 3 ≤ segments) :
    (create_ring_vertices radius thickness segments horizontal trig).length
        = 2 * (segments + 1) ∧
    (create_ring_indices segments).length = 6 * segments ∧
    ∀ j ∈ create_ring_indices segments, j < 2 * (segments + 1) := by
  refine ⟨?_, ?_, ?_⟩
  · rw [show (create_ring_vertices radius thickness segments horizontal trig).length
        = (segments + 1) * 2 from
      length_flatMap_range _ (segments + 1) 2 (fun _ => rfl)]
    ring
  · rw [show (create_ring_indices segments).length = segments * 6 from
      length_flatMap_range _ segments 6 (fun _ => rfl)]
    ring
  · intro j hj
    simp only [create_ring_indices, List.mem_flatMap, List.mem_range,
      List.mem_cons, List.not_mem_nil, or_false] at hj
    obtain ⟨i, hi, hj⟩ := hj
    have hnext : (i + 1) % segments < segments := Nat.mod_lt _ (by omega)
    omega

/-- Witness for C6 at a concrete ring with `segments = 4`. -/
theorem ring_buffer_counts_witness :
    (3 ≤ 4) ∧
    (create_ring_vertices 1 (1/2) 4 false trig4).length = 2 * (4 + 1) ∧
    (create_ring_indices 4).length = 6 * 4 ∧
    ∀ j ∈ create_ring_indices 4, j < 2 * (4 + 1) :=
  ⟨by decide, ring_buffer_counts 1 (1/2) 4 false trig4 (by decide)⟩

/-- C10: for every `segments ≥ 1`, every index emitted by the ring generator
is at most `2·segments − 1`, so the duplicated seam vertex pair (indices
`2·segments` and `2·segments+1`) is never referenced. -/
theorem ring_indices_skip_seam (segments : ℕ) (h : 1 ≤ segments) :
    ∀ j ∈ create_ring_indices segments, j ≤ 2 * segments - 1 := by
  intro j hj
  simp only [create_ring_indices, List.mem_flatMap, List.mem_range,
    List.mem_cons, List.not_mem_nil, or_false] at hj
  obtain ⟨i, hi, hj⟩ := hj
  have hnext : (i + 1) % segments < segments := Nat.mod_lt _ (by omega)
  omega

/-- Witness for C10 at `segments = 4`: index 6 is emitted and is within the
bound `2·4 − 1 = 7`. -/
theorem ring_indices_skip_seam_witness :
    (1 ≤ 4) ∧ 6 ∈ create_ring_indices 4 ∧ 6 ≤ 2 * 4 - 1 :=
  ⟨by decide, by decide, ring_indices_skip_seam 4 (by decide) 6 (by decide)⟩

/-- C5: for all `lat_bands, long_bands ≥ 1`, the sphere generator produces
exactly `(lat_bands+1)·(long_bands+1)` vertices and `6·lat_bands·long_bands`
triangle indices, and every emitted index is strictly less than the vertex
count. -/
theorem sphere_buffer_counts (radius : ℚ) (lat_bands long_bands : ℕ)
    (latT longT : ℕ → ℚ × ℚ) (h1 : 1 ≤ lat_bands) (h2 : 1 ≤ long_bands) :
    (create_sphere_vertices radius lat_bands long_bands latT longT).length
        = (lat_bands + 1) * (long_bands + 1) ∧
    (create_sphere_indices lat_bands long_bands).length
        = 6 * (lat_bands * long_bands) ∧
    ∀ j ∈ create_sphere_indices lat_bands long_bands,
      j < (lat_bands + 1) * (long_bands + 1) := by
  refine ⟨?_, ?_, ?_⟩
  · exact length_flatMap_range _ (lat_bands + 1) (long_bands + 1)
      (fun _ => by simp)
  · rw [show (create_sphere_indices lat_bands long_bands).length
        = lat_bands * (long_bands * 6) from
      length_flatMap_range _ lat_bands (long_bands * 6)
        (fun _ => length_flatMap_range _ long_bands 6 (fun _ => rfl))]
    ring
  · intro j hj
    simp only [create_sphere_indices, List.mem_flatMap, List.mem_range,
      List.mem_cons, List.not_mem_nil, or_false] at hj
    obtain ⟨lat, hlat, long, hlong, hj⟩ := hj
    have key : lat * (long_bands + 1) + 2 * long_bands + 2
        ≤ (lat_bands + 1) * (long_bands + 1) := by
      calc lat * (long_bands + 1) + 2 * long_bands + 2
          = (lat + 2) * (long_bands + 1) := by ring
        _ ≤ (lat_bands + 1) * (long_bands + 1) :=
            Nat.mul_le_mul_right _ (by omega)
    rcases hj with rfl | rfl | rfl | rfl | rfl | rfl <;> linarith

/-- Witness for C5 at `lat_bands = long_bands = 2`. -/
theorem sphere_buffer_counts_witness :
    (1 ≤ 2) ∧
    (create_sphere_vertices 1 2 2 (fun _ => (0, 1)) (fun _ => (0, 1))).length
        = (2 + 1) * (2 + 1) ∧
    (create_sphere_indices 2 2).length = 6 * (2 * 2) ∧
    ∀ j ∈ create_sphere_indices 2 2, j < (2 + 1) * (2 + 1) :=
  ⟨by decide,
   sphere_buffer_counts 1 2 2 (fun _ => (0, 1)) (fun _ => (0, 1))
     (by decide) (by decide)⟩

/-- The sphere vertex buffer is the normal buffer scaled by the radius,
directly reflecting line 27 of the source. -/
lemma create_sphere_vertices_eq (radius : ℚ) (lat_bands long_bands : ℕ)
    (latT longT : ℕ → ℚ × ℚ) :
    create_sphere_vertices radius lat_bands long_bands latT longT =
      (create_sphere_normals lat_bands long_bands latT longT).map
        (fun n => ⟨radius * n.x, radius * n.y, radius * n.z⟩) := by
  simp only [create_sphere_vertices, create_sphere_normals, List.map_flatMap,
    List.map_map]
  rfl

/-- C7: every sphere grid point whose trig-table rows satisfy the Pythagorean
identity yields a normal of exactly unit length, and the vertex at the same
position in the parallel vertex buffer is exactly `radius · normal` (the
spec's `1e-6` tolerances hold with exact equality). -/
theorem sphere_normals_unit (radius : ℚ) (lat_bands long_bands : ℕ)
    (latT longT : ℕ → ℚ × ℚ)
    (hlat : ∀ l, (latT l).1 ^ 2 + (latT l).2 ^ 2 = 1)
    (hlong : ∀ l, (longT l).1 ^ 2 + (longT l).2 ^ 2 = 1)
    (i : ℕ) (n : Vec3)
    (hn : (create_sphere_normals lat_bands long_bands latT longT)[i]? = some n) :
    n.x ^ 2 + n.y ^ 2 + n.z ^ 2 = 1 ∧
    (create_sphere_vertices radius lat_bands long_bands latT longT)[i]? =
      some ⟨radius * n.x, radius * n.y, radius * n.z⟩ := by
  constructor
  · have hmem : n ∈ create_sphere_normals lat_bands long_bands latT longT :=
      List.getElem?_mem hn
    simp only [create_sphere_normals, List.mem_flatMap, List.mem_map,
      List.mem_range] at hmem
    obtain ⟨lat, _, long, _, hlatlong⟩ := hmem
    subst hlatlong
    simp only [sphere_normal]
    have h1 := hlat lat
    have h2 := hlong long
    linear_combination ((latT lat).1 ^ 2) * h2 + h1
  · rw [create_sphere_vertices_eq, List.getElem?_map, hn]
    rfl

/-- Witness for C7 at a 1×1 grid with trig rows `(0, 1)` and index 0. -/
theorem sphere_normals_unit_witness :
    (∀ l : ℕ, ((0 : ℚ)) ^ 2 + ((1 : ℚ)) ^ 2 = 1) ∧
    (create_sphere_normals 1 1 (fun _ => (0, 1)) (fun _ => (0, 1)))[0]?
        = some ⟨1 * 0, 1, 0 * 0⟩ ∧
    ((⟨1 * 0, 1, 0 * 0⟩ : Vec3).x ^ 2 + (⟨1 * 0, 1, 0 * 0⟩ : Vec3).y ^ 2
        + (⟨1 * 0, 1, 0 * 0⟩ : Vec3).z ^ 2 = 1 ∧
      (create_sphere_vertices (3/2) 1 1 (fun _ => (0, 1)) (fun _ => (0, 1)))[0]?
        = some ⟨(3/2) * (⟨1 * 0, 1, 0 * 0⟩ : Vec3).x,
                (3/2) * (⟨1 * 0, 1, 0 * 0⟩ : Vec3).y,
                (3/2) * (⟨1 * 0, 1, 0 * 0⟩ : Vec3).z⟩) :=
  ⟨fun _ => by norm_num,
   by simp [create_sphere_normals, sphere_normal, List.range_succ],
   sphere_normals_unit (3/2) 1 1 (fun _ => (0, 1)) (fun _ => (0, 1))
     (fun _ => by norm_num) (fun _ => by norm_num) 0 ⟨1 * 0, 1, 0 * 0⟩
     (by simp [create_sphere_normals, sphere_normal, List.range_succ])⟩

/-- C1 counterexample: for the vertical ring (`horizontal = false`) with
`radius = 1`, `thickness = 1/2`, `segments = 4`, the two vertices of sample 0
both have `y = 0`; they are not offset by `±thickness/2` along the y axis
from the centerline point as the claim requires for vertical orientation. -/
theorem ring_offset_axis_cex :
    ((create_ring_vertices 1 (1/2) 4 false trig4)[0]?).map Vec3.y = some 0 ∧
    ((create_ring_vertices 1 (1/2) 4 false trig4)[1]?).map Vec3.y = some 0 ∧
    ¬ (((create_ring_vertices 1 (1/2) 4 false trig4)[0]?).map Vec3.y
          = some ((ring_center 1 false trig4 0).y - (1/2) / 2) ∧
        ((create_ring_vertices 1 (1/2) 4 false trig4)[1]?).map Vec3.y
          = some ((ring_center 1 false trig4 0).y + (1/2) / 2)) := by
  refine ⟨?_, ?_, ?_⟩ <;>
    simp [create_ring_vertices, ring_center, trig4, List.range_succ]

/-- C1 as amended: for every ring and every sample `i`, the two emitted
vertices are the centerline point with `z` shifted by `−thickness/2` and
`+thickness/2` respectively and `x`, `y` unchanged — for both orientations.
The z axis is orthogonal to the ring plane only for horizontal rings; for
vertical rings the offset lies inside the ring plane rather than along y. -/
theorem ring_vertex_offsets (radius thickness : ℚ) (segments : ℕ)
    (horizontal : Bool) (trig : ℕ → ℚ × ℚ) (i : ℕ) (hi : i < segments + 1) :
    (create_ring_vertices radius thickness segments horizontal trig)[2 * i]? =
      some ⟨(ring_center radius horizontal trig i).x,
            (ring_center radius horizontal trig i).y,
            (ring_center radius horizontal trig i).z - thickness / 2⟩ ∧
    (create_ring_vertices radius thickness segments horizontal trig)[2 * i + 1]? =
      some ⟨(ring_center radius horizontal trig i).x,
            (ring_center radius horizontal trig i).y,
            (ring_center radius horizontal trig i).z + thickness / 2⟩ :=
  getElem?_flatMap_pair
    (fun j => (⟨(ring_center radius horizontal trig j).x,
      (ring_center radius horizontal trig j).y,
      (ring_center radius horizontal trig j).z - thickness / 2⟩ : Vec3))
    (fun j => ⟨(ring_center radius horizontal trig j).x,
      (ring_center radius horizontal trig j).y,
      (ring_center radius horizontal trig j).z + thickness / 2⟩)
    (segments + 1) i hi

/-- Witness for the amended C1 at sample 0 of a vertical ring. -/
theorem ring_vertex_offsets_witness :
    (0 < 4 + 1) ∧
    ((create_ring_vertices 1 (1/2) 4 false trig4)[2 * 0]? =
      some ⟨(ring_center 1 false trig4 0).x, (ring_center 1 false trig4 0).y,
            (ring_center 1 false trig4 0).z - (1/2) / 2⟩ ∧
    (create_ring_vertices 1 (1/2) 4 false trig4)[2 * 0 + 1]? =
      some ⟨(ring_center 1 false trig4 0).x, (ring_center 1 false trig4 0).y,
            (ring_center 1 false trig4 0).z + (1/2) / 2⟩) :=
  ⟨by decide, ring_vertex_offsets 1 (1/2) 4 false trig4 0 (by decide)⟩

/-! ### Claims about the camera/event loop -/

/-- A frame with no events, starting outside a drag, decays both velocities,
integrates the angles, and adds the ambient auto-rotation. -/
lemma frame_nil (s : LoopState) (hmd : s.mouse_down = false) :
    frame s [] = some { s with
      rot_x := s.rot_x + s.rot_x_velocity * deceleration + camera_rotation_speed
      rot_y := s.rot_y + s.rot_y_velocity * deceleration
      rot_x_velocity := s.rot_x_velocity * deceleration
      rot_y_velocity := s.rot_y_velocity * deceleration } := by
  simp [frame, handleEvents, hmd]

/-- C3: for every starting state with no active drag, running `k` frames with
no events multiplies each angular velocity by `deceleration` per frame, so
the velocities after `k` idle frames are exactly `v0 · deceleration^k`. -/
theorem camera_velocity_decay (s : LoopState) (hmd : s.mouse_down = false)
    (k : ℕ) :
    (runFrames s (List.replicate k [])).map
        (fun t => (t.rot_x_velocity, t.rot_y_velocity)) =
      some (s.rot_x_velocity * deceleration ^ k,
            s.rot_y_velocity * deceleration ^ k) := by
  induction k generalizing s with
  | zero => simp [runFrames]
  | succ k ih =>
    rw [List.replicate_succ, runFrames, frame_nil s hmd]
    have h2 := ih { s with
      rot_x := s.rot_x + s.rot_x_velocity * deceleration + camera_rotation_speed
      rot_y := s.rot_y + s.rot_y_velocity * deceleration
      rot_x_velocity := s.rot_x_velocity * deceleration
      rot_y_velocity := s.rot_y_velocity * deceleration } (by simp [hmd])
    simp only [Option.some_bind] at h2 ⊢
    rw [h2]
    simp only [Option.some.injEq, Prod.mk.injEq]
    constructor <;> ring

/-- Witness for C3: from unit velocities, 10 idle frames leave exactly
`deceleration^10` (≈ 0.5987 with `deceleration = 0.95`). -/
theorem camera_velocity_decay_witness :
    ((⟨0, 0, 1, 1, false, (0, 0)⟩ : LoopState).mouse_down = false) ∧
    ((runFrames ⟨0, 0, 1, 1, false, (0, 0)⟩ (List.replicate 10 [])).map
        (fun t => (t.rot_x_velocity, t.rot_y_velocity)) =
      some (1 * deceleration ^ 10, 1 * deceleration ^ 10)) ∧
    (1 : ℚ) * deceleration ^ 10 = 6131066257801 / 10240000000000 :=
  ⟨rfl, camera_velocity_decay ⟨0, 0, 1, 1, false, (0, 0)⟩ rfl 10,
   by norm_num [deceleration]⟩

/-- C4: during an active drag, a pointer-move whose reported position differs
from the last sampled position by `(dx, dy)` adds exactly `dy/100` to
`rot_x_velocity` and exactly `dx/100` to `rot_y_velocity`, and updates the
reference position. -/
theorem drag_accumulation (s : LoopState) (dx dy : ℤ)
    (hmd : s.mouse_down = true) :
    handleEvent s
        (.mouseMotion (s.last_mouse_pos.1 + dx, s.last_mouse_pos.2 + dy)) =
      some { s with
        rot_x_velocity := s.rot_x_velocity + (dy : ℚ) / 100
        rot_y_velocity := s.rot_y_velocity + (dx : ℚ) / 100
        last_mouse_pos := (s.last_mouse_pos.1 + dx, s.last_mouse_pos.2 + dy) } := by
  simp [handleEvent, hmd, add_sub_cancel_left]

/-- Witness for C4: a drag delta of `(dx = 10, dy = 0)` increases
`rot_y_velocity` by exactly `0.1` and leaves `rot_x_velocity` unchanged. -/
theorem drag_accumulation_witness :
    ((⟨0, 0, 0, 0, true, (0, 0)⟩ : LoopState).mouse_down = true) ∧
    (handleEvent ⟨0, 0, 0, 0, true, (0, 0)⟩
        (.mouseMotion ((0 : ℤ) + 10, (0 : ℤ) + 0)) =
      some ⟨0, 0, 0 + (0 : ℚ) / 100, 0 + (10 : ℚ) / 100, true,
        ((0 : ℤ) + 10, (0 : ℤ) + 0)⟩) ∧
    (0 : ℚ) + (10 : ℚ) / 100 = 1 / 10 ∧ (0 : ℚ) + (0 : ℚ) / 100 = 0 :=
  ⟨rfl, drag_accumulation ⟨0, 0, 0, 0, true, (0, 0)⟩ 10 0 rfl,
   by norm_num, by norm_num⟩

/-- Dispatching an event that is neither quit nor a primary-button press
leaves a non-dragging state unchanged. -/
lemma handleEvent_no_press (s : LoopState) (hmd : s.mouse_down = false)
    (e : Event) (he : NoPress e) :
    handleEvent s e = some s := by
  cases e with
  | quit => exact absurd he (by simp [NoPress])
  | mouseButtonDown b pos =>
      simp only [NoPress] at he
      simp [handleEvent, he]
  | mouseButtonUp b =>
      by_cases hb : b = 1
      · subst hb
        cases s
        simp_all [handleEvent]
      · simp [handleEvent, hb]
  | mouseMotion pos => simp [handleEvent, hmd]

/-- Dispatching a whole frame's worth of such events leaves the state
unchanged. -/
lemma handleEvents_no_press (s : LoopState) (hmd : s.mouse_down = false)
    (evs : List Event) (hevs : ∀ e ∈ evs, NoPress e) :
    handleEvents s evs = some s := by
  induction evs with
  | nil => rfl
  | cons e es ih =>
    rw [handleEvents, handleEvent_no_press s hmd e (hevs e (by simp)),
      Option.some_bind]
    exact ih fun e he => hevs e (by simp [he])

/-- With no primary-button press, a run of frames only accumulates the
ambient auto-rotation in `rot_x`. -/
lemma runFrames_no_press (fs : List (List Event)) (x : ℚ) (p : ℤ × ℤ)
    (hfs : ∀ evs ∈ fs, ∀ e ∈ evs, NoPress e) :
    runFrames ⟨x, 0, 0, 0, false, p⟩ fs =
      some ⟨x + fs.length * camera_rotation_speed, 0, 0, 0, false, p⟩ := by
  induction fs generalizing x with
  | nil => simp [runFrames]
  | cons evs rest ih =>
    rw [runFrames, frame]
    rw [handleEvents_no_press _ rfl evs (hfs evs (by simp))]
    have step : ((some (⟨x, 0, 0, 0, false, p⟩ : LoopState)).map fun s1 =>
        let s2 := if s1.mouse_down then s1
          else { s1 with
            rot_x_velocity := s1.rot_x_velocity * deceleration
            rot_y_velocity := s1.rot_y_velocity * deceleration }
        let s3 := { s2 with
          rot_x := s2.rot_x + s2.rot_x_velocity
          rot_y := s2.rot_y + s2.rot_y_velocity }
        if s3.mouse_down then s3
        else { s3 with rot_x := s3.rot_x + camera_rotation_speed }) =
        some (⟨x + camera_rotation_speed, 0, 0, 0, false, p⟩ : LoopState) := by
      simp
    rw [step, Option.some_bind]
    rw [ih (x + camera_rotation_speed) fun evs2 h2 => hfs evs2 (by simp [h2])]
    have harith : x + camera_rotation_speed
        + (rest.length : ℚ) * camera_rotation_speed
        = x + ((rest.length + 1 : ℕ) : ℚ) * camera_rotation_speed := by
      push_cast
      ring
    rw [Option.some.injEq, LoopState.mk.injEq]
    simp [harith]

/-- C9: if the primary mouse button is never pressed (frames may still
contain other events), then after `k` frames both angular velocities and
`rot_y` are exactly 0 and `rot_x` equals `k · camera_rotation_speed`. -/
theorem no_press_rotation (fs : List (List Event))
    (hfs : ∀ evs ∈ fs, ∀ e ∈ evs, NoPress e) :
    runFrames initial_state fs =
      some ⟨(fs.length : ℚ) * camera_rotation_speed, 0, 0, 0, false, (0, 0)⟩ := by
  have h := runFrames_no_press fs 0 (0, 0) hfs
  rw [show (⟨0, 0, 0, 0, false, (0, 0)⟩ : LoopState) = initial_state from rfl] at h
  rw [h]
  norm_num

/-- Witness for C9: three frames containing a button release and a motion
event (but no press) leave the velocities and `rot_y` at 0 and advance
`rot_x` by `3 · camera_rotation_speed`. -/
theorem no_press_rotation_witness :
    (∀ evs ∈ ([[], [Event.mouseButtonUp 1], [Event.mouseMotion (3, 4)]] :
        List (List Event)), ∀ e ∈ evs, NoPress e) ∧
    runFrames initial_state [[], [Event.mouseButtonUp 1], [Event.mouseMotion (3, 4)]] =
      some ⟨((3 : ℕ) : ℚ) * camera_rotation_speed, 0, 0, 0, false, (0, 0)⟩ :=
  ⟨by simp [NoPress],
   no_press_rotation [[], [Event.mouseButtonUp 1], [Event.mouseMotion (3, 4)]]
     (by simp [NoPress])⟩

/-! ### Claims about the per-frame draw sequence and startup validation -/

/-- C2 counterexample: in the frame's submission sequence starting from the
GL default state, the sphere (second draw call) is issued with lighting
disabled — `draw_object` executes `glDisable(GL_LIGHTING)` when
`use_normal` is set and `glEnable(GL_LIGHTING)` is never called — and with
its vertex position buffer, not its normal buffer, bound as the normal
array (line 53 passes `vertices` to `glNormalPointerf`). -/
theorem sphere_draw_cex :
    (frame_draw_calls initial_gl)[1]? =
      some (.elements .sphere_vertices_buf (6/100, 6/100, 6/100) 2 false
        (some .sphere_vertices_buf)) ∧
    some BufferId.sphere_vertices_buf ≠ some BufferId.sphere_normals_buf ∧
    false ≠ true := by
  refine ⟨?_, by simp, by simp⟩
  norm_num [frame_draw_calls, draw_object, draw_stars, initial_gl]

/-- C2 as amended: from any initial GL state, each frame submits, in order,
the star field (unlit points), the sphere (lighting disabled, dark
near-black color, with its vertex position buffer bound as the normal
array), then the three rings (unlit, flat orange, line width 2). -/
theorem frame_draw_sequence (gl : GLState) :
    frame_draw_calls gl =
      [.points (1, 1, 1) false,
       .elements .sphere_vertices_buf (6/100, 6/100, 6/100) 2 false
         (some .sphere_vertices_buf),
       .elements .ring_buf (1, 1/2, 0) 2 false none,
       .elements .additional_ring_buf (1, 1/2, 0) 2 false none,
       .elements .horizontal_ring_buf (1, 1/2, 0) 2 false none] := by
  norm_num [frame_draw_calls, draw_object, draw_stars]

/-- C8 counterexample: a malformed configuration with a negative radius is
accepted by the ring generator without any failure — the program performs no
configuration validation, contradicting the fail-fast claim. -/
theorem config_validation_cex :
    (create_ring_checked (-(3/2)) (1/2) 4 false trig4).isOk = true ∧
    (-(3/2) : ℚ) ≤ 0 := by
  constructor
  · rfl
  · norm_num

/-- C8 as amended: the program performs no configuration validation. Every
radius and thickness (including non-positive values) is accepted silently and
geometry is produced anyway; the only malformed parameter that stops startup
is a zero segment count, which aborts with an uncaught `ZeroDivisionError`
from the angle computation rather than a descriptive validation error. -/
theorem config_no_validation (radius thickness : ℚ) (segments : ℕ)
    (horizontal : Bool) (trig : ℕ → ℚ × ℚ) :
    (create_ring_checked radius thickness 0 horizontal trig =
        .error "ZeroDivisionError: division by zero") ∧
    (segments ≠ 0 →
      create_ring_checked radius thickness segments horizontal trig =
        .ok (create_ring radius thickness segments horizontal trig)) := by
  constructor
  · rfl
  · intro h
    simp [create_ring_checked, h]

/-- Witness for the amended C8 at a negative radius and `segments = 4`. -/
theorem config_no_validation_witness :
    ((4 : ℕ) ≠ 0) ∧
    create_ring_checked (-(3/2)) (1/2) 4 false trig4 =
      .ok (create_ring (-(3/2)) (1/2) 4 false trig4) :=
  ⟨by decide,
   (config_no_validation (-(3/2)) (1/2) 4 false trig4).2 (by decide)⟩
